import Mathlib

/-!
Shallow embedding of `apps/readest-app/src-tauri/icons/generate_icons.py`.

The script loads one master image (`icon.png`), iterates three hardcoded
size tables (desktop, iOS, Windows Store), and for each `(filename, size)`
entry resizes the master image to `size × size` and saves it: in ICO format
with a single embedded `(size, size)` frame when the filename ends in
`.ico`, otherwise in PNG format.  After each successful save it prints one
progress line.  Any failure (missing/undecodable source, unwritable
destination) propagates as an uncaught exception, aborting the run at that
point with everything written so far still on disk.

The embedding models the filesystem state explicitly: the decodable content
of the hardcoded source path `icon.png`, the set of existing
subdirectories, whether the working directory itself is writable, and an
association list of written output files.  Pixel data is abstracted: a
decoded image is either opaque source data with its dimensions, or the
resize of another image to explicit dimensions (the LANCZOS resampling
filter only affects pixel values, never dimensions, so it is absorbed into
the `resized` constructor).  Exceptions are modelled by an `err` field that,
once set, freezes the run (fail-fast).
-/

namespace IconGen

/-- An in-memory decoded raster image.  `src data w h` is an image decoded
from a file (pixel payload abstracted to an opaque `data` tag) with pixel
dimensions `w × h`; `resized orig w h` is the result of
`orig.resize((w, h), Image.Resampling.LANCZOS)`: a fresh image of
dimensions `w × h` computed from `orig`. -/
inductive Image where
  | src (data : Nat) (w h : Nat)
  | resized (orig : Image) (w h : Nat)
deriving DecidableEq

/-- Pixel width of a decoded image. -/
def Image.width : Image → Nat
  | .src _ w _ => w
  | .resized _ w _ => w

/-- Pixel height of a decoded image. -/
def Image.height : Image → Nat
  | .src _ _ h => h
  | .resized _ _ h => h

/-- `img.resize((w, h), Image.Resampling.LANCZOS)`: returns a fresh image
of exactly the requested dimensions; the input image is not modified. -/
def Image.resize (img : Image) (w h : Nat) : Image := .resized img w h

/-- Encoding format of a written file: PNG (the default chosen by
`resized.save(filename)` for a `.png` path) or ICO
(`resized.save(filename, format='ICO', sizes=[(size, size)])`). -/
inductive Format where
  | png
  | ico
deriving DecidableEq

/-- Content of one written output file: the image that was encoded, the
encoding format, and — for ICO files — the list of embedded frame sizes
passed as `sizes=[...]` (empty for PNG). -/
structure Content where
  image : Image
  format : Format
  icoSizes : List (Nat × Nat)
deriving DecidableEq

/-- Decoded pixel width of a written file. -/
def Content.width (c : Content) : Nat := c.image.width

/-- Decoded pixel height of a written file. -/
def Content.height (c : Content) : Nat := c.image.height

/-- Filesystem state of the working directory in which the script runs. -/
structure FS where
  /-- Names of the subdirectories that exist (the script never creates
  directories; saving under `d/...` fails unless `d` is listed here). -/
  dirs : List String
  /-- Whether files can be created in the working directory itself. -/
  rootWritable : Bool
  /-- The output files present, as an association list from relative path
  to file content. -/
  files : List (String × Content)
  /-- Decodable raster content of the file at the hardcoded source path
  `icon.png`: `none` when that file is missing or not a decodable image. -/
  source : Option Image
deriving DecidableEq

/-- `Image.open('icon.png')`: yields the decoded source image, or fails
(`FileNotFoundError` / `UnidentifiedImageError`) when the file is missing
or undecodable.  The path is hardcoded; no argument, configuration or
environment variable influences it. -/
def Image.open (fs : FS) : Option Image := fs.source

/-- The characters strictly before the first `/`, or `none` when the list
contains no `/`. -/
def beforeSlash : List Char → Option (List Char)
  | [] => none
  | c :: rest => if c = '/' then some [] else (beforeSlash rest).map (c :: ·)

/-- The directory component of a relative path: `some d` for `d/rest`,
`none` for a flat filename.  (Defined over the path's character list so
that it evaluates by kernel reduction.) -/
def dirOf (path : String) : Option String :=
  (beforeSlash path.data).map String.mk

/-- `filename.endswith('.ico')` from the script: suffix test on the
path's characters (defined over the character list so that it evaluates
by kernel reduction; extensionally the usual string suffix test). -/
def hasIcoSuffix (filename : String) : Bool :=
  ".ico".data.isSuffixOf filename.data

/-- Whether `resized.save(path)` can succeed in filesystem state `fs`:
a flat path needs the working directory writable, a path under a
subdirectory needs that subdirectory to exist. -/
def FS.canWrite (fs : FS) (path : String) : Bool :=
  match dirOf path with
  | none => fs.rootWritable
  | some d => fs.dirs.contains d

/-- Create or overwrite the binding of path `p` in an association list of
files, leaving every other path untouched. -/
def setFile : List (String × Content) → String → Content → List (String × Content)
  | [], p, c => [(p, c)]
  | (q, cq) :: rest, p, c =>
      if q = p then (p, c) :: rest else (q, cq) :: setFile rest p c

/-- Look up the content of the file at path `p`, if present. -/
def lookupFile : List (String × Content) → String → Option Content
  | [], _ => none
  | (q, cq) :: rest, p => if q = p then some cq else lookupFile rest p

/-- Content of the file at path `p` in filesystem state `fs`. -/
def FS.lookup (fs : FS) (p : String) : Option Content := lookupFile fs.files p

/-- `resized.save(...)`: writes content `c` at path `p`, or fails
(returns `none`) when the destination is not writable. -/
def FS.save (fs : FS) (p : String) (c : Content) : Option FS :=
  if fs.canWrite p then some { fs with files := setFile fs.files p c } else none

/-- The uncaught exceptions the script can die with. -/
inductive Err where
  /-- `Image.open('icon.png')` failed: source missing or undecodable. -/
  | loadError
  /-- `resized.save(path)` failed at the given output path. -/
  | saveError (path : String)
deriving DecidableEq

/-- State of a run: current filesystem, lines printed to stdout so far,
and the pending uncaught exception, if one was raised. -/
structure RunState where
  fs : FS
  output : List String
  err : Option Err
deriving DecidableEq

/-- The progress line `print(f"Generated {filename} ({size}x{size})")`. -/
def progressLine (filename : String) (size : Nat) : String :=
  "Generated " ++ filename ++ " (" ++ toString size ++ "x" ++ toString size ++ ")"

/-- The content written for one table entry: the master image resized to
`size × size`; encoded as ICO with embedded sizes `[(size, size)]` when
the filename ends in `.ico`, as PNG otherwise.  This filename-suffix test
is the only format branch in the script. -/
def entryContent (main_icon : Image) (filename : String) (size : Nat) : Content :=
  let r := main_icon.resize size size
  if hasIcoSuffix filename then
    { image := r, format := .ico, icoSizes := [(size, size)] }
  else
    { image := r, format := .png, icoSizes := [] }

/-- One iteration of a `for filename, size in table.items():` loop body:
if an exception is already pending, nothing more executes; otherwise
resize, save (raising on failure), and print the progress line. -/
def processEntry (main_icon : Image) (st : RunState) (e : String × Nat) : RunState :=
  match st.err with
  | some _ => st
  | none =>
      match st.fs.save e.1 (entryContent main_icon e.1 e.2) with
      | some fs1 =>
          { fs := fs1, output := st.output ++ [progressLine e.1 e.2], err := none }
      | none => { st with err := some (.saveError e.1) }

/-- Run one size table's loop from a given run state. -/
def runEntries (main_icon : Image) (entries : List (String × Nat)) (st : RunState) : RunState :=
  entries.foldl (processEntry main_icon) st

/-- The desktop size table `sizes` of `generate_icons`, in dict insertion
order. -/
def sizes : List (String × Nat) :=
  [("32x32.png", 32),
   ("64x64.png", 64),
   ("128x128.png", 128),
   ("128x128@2x.png", 256),
   ("icon.ico", 32)]

/-- The iOS size table `ios_sizes`, in dict insertion order. -/
def ios_sizes : List (String × Nat) :=
  [("ios/AppIcon-20x20@1x.png", 20),
   ("ios/AppIcon-20x20@2x.png", 40),
   ("ios/AppIcon-20x20@3x.png", 60),
   ("ios/AppIcon-29x29@1x.png", 29),
   ("ios/AppIcon-29x29@2x.png", 58),
   ("ios/AppIcon-29x29@3x.png", 87),
   ("ios/AppIcon-40x40@1x.png", 40),
   ("ios/AppIcon-40x40@2x.png", 80),
   ("ios/AppIcon-40x40@3x.png", 120),
   ("ios/AppIcon-60x60@2x.png", 120),
   ("ios/AppIcon-60x60@3x.png", 180),
   ("ios/AppIcon-76x76@1x.png", 76),
   ("ios/AppIcon-76x76@2x.png", 152),
   ("ios/AppIcon-83.5x83.5@2x.png", 167),
   ("ios/AppIcon-512@2x.png", 1024)]

/-- The Windows Store size table `store_sizes`, in dict insertion order. -/
def store_sizes : List (String × Nat) :=
  [("Square30x30Logo.png", 30),
   ("Square44x44Logo.png", 44),
   ("Square71x71Logo.png", 71),
   ("Square89x89Logo.png", 89),
   ("Square107x107Logo.png", 107),
   ("Square142x142Logo.png", 142),
   ("Square150x150Logo.png", 150),
   ("Square284x284Logo.png", 284),
   ("Square310x310Logo.png", 310),
   ("StoreLogo.png", 50)]

/-- All `(path, size)` entries, in the order the script processes them:
desktop, then iOS, then Windows Store. -/
def allEntries : List (String × Nat) := sizes ++ ios_sizes ++ store_sizes

/-- `generate_icons()`: open the hardcoded source, then run the three
table loops in program order.  Takes no input besides the ambient
filesystem state. -/
def generate_icons (fs : FS) : RunState :=
  match Image.open fs with
  | none => { fs := fs, output := [], err := some .loadError }
  | some main_icon =>
      let st1 := runEntries main_icon sizes { fs := fs, output := [], err := none }
      let st2 := runEntries main_icon ios_sizes st1
      runEntries main_icon store_sizes st2

/-! ### Basic lemmas about the filesystem map -/

theorem lookupFile_setFile (files : List (String × Content)) (p q : String) (c : Content) :
    lookupFile (setFile files p c) q = if p = q then some c else lookupFile files q := by
  induction files with
  | nil =>
      simp only [setFile, lookupFile]
  | cons hd rest ih =>
      obtain ⟨a, ca⟩ := hd
      by_cases hap : a = p <;> by_cases hpq : p = q
      · subst hap; subst hpq
        simp [setFile, lookupFile]
      · subst hap
        simp [setFile, lookupFile, hpq]
      · subst hpq
        simp [setFile, lookupFile, hap, ih]
      · by_cases haq : a = q
        · subst haq
          simp [setFile, lookupFile, hap, hpq]
        · simp [setFile, lookupFile, hap, hpq, haq, ih]

theorem canWrite_congr (fs1 fs2 : FS) (p : String)
    (hd : fs1.dirs = fs2.dirs) (hr : fs1.rootWritable = fs2.rootWritable) :
    fs1.canWrite p = fs2.canWrite p := by
  unfold FS.canWrite
  rw [hd, hr]

theorem canWrite_flat (fs : FS) (p : String) (h : dirOf p = none) :
    fs.canWrite p = fs.rootWritable := by
  unfold FS.canWrite
  rw [h]

theorem canWrite_sub (fs : FS) (p d : String) (h : dirOf p = some d) :
    fs.canWrite p = fs.dirs.contains d := by
  unfold FS.canWrite
  rw [h]

/-! ### Lemmas about one loop iteration -/

theorem processEntry_of_err (main_icon : Image) (st : RunState) (e : String × Nat)
    (er : Err) (h : st.err = some er) : processEntry main_icon st e = st := by
  unfold processEntry
  rw [h]

theorem processEntry_of_canWrite (main_icon : Image) (st : RunState) (e : String × Nat)
    (h0 : st.err = none) (hw : st.fs.canWrite e.1 = true) :
    processEntry main_icon st e =
      { fs := { st.fs with
                  files := setFile st.fs.files e.1 (entryContent main_icon e.1 e.2) },
        output := st.output ++ [progressLine e.1 e.2], err := none } := by
  unfold processEntry FS.save
  rw [h0]
  simp [hw]

theorem processEntry_of_cantWrite (main_icon : Image) (st : RunState) (e : String × Nat)
    (h0 : st.err = none) (hw : st.fs.canWrite e.1 = false) :
    processEntry main_icon st e = { st with err := some (.saveError e.1) } := by
  unfold processEntry FS.save
  rw [h0]
  simp [hw]

theorem processEntry_dirs (main_icon : Image) (st : RunState) (e : String × Nat) :
    (processEntry main_icon st e).fs.dirs = st.fs.dirs := by
  cases h0 : st.err with
  | some er => rw [processEntry_of_err _ _ _ _ h0]
  | none =>
      by_cases hw : st.fs.canWrite e.1 = true
      · rw [processEntry_of_canWrite _ _ _ h0 hw]
      · rw [processEntry_of_cantWrite _ _ _ h0 (by simpa using hw)]

theorem processEntry_rootWritable (main_icon : Image) (st : RunState) (e : String × Nat) :
    (processEntry main_icon st e).fs.rootWritable = st.fs.rootWritable := by
  cases h0 : st.err with
  | some er => rw [processEntry_of_err _ _ _ _ h0]
  | none =>
      by_cases hw : st.fs.canWrite e.1 = true
      · rw [processEntry_of_canWrite _ _ _ h0 hw]
      · rw [processEntry_of_cantWrite _ _ _ h0 (by simpa using hw)]

theorem processEntry_source (main_icon : Image) (st : RunState) (e : String × Nat) :
    (processEntry main_icon st e).fs.source = st.fs.source := by
  cases h0 : st.err with
  | some er => rw [processEntry_of_err _ _ _ _ h0]
  | none =>
      by_cases hw : st.fs.canWrite e.1 = true
      · rw [processEntry_of_canWrite _ _ _ h0 hw]
      · rw [processEntry_of_cantWrite _ _ _ h0 (by simpa using hw)]

theorem processEntry_canWrite (main_icon : Image) (st : RunState) (e : String × Nat)
    (p : String) : (processEntry main_icon st e).fs.canWrite p = st.fs.canWrite p :=
  canWrite_congr _ _ _ (processEntry_dirs _ _ _) (processEntry_rootWritable _ _ _)

theorem processEntry_err_none_iff (main_icon : Image) (st : RunState) (e : String × Nat) :
    (processEntry main_icon st e).err = none ↔
      st.err = none ∧ st.fs.canWrite e.1 = true := by
  cases h0 : st.err with
  | some er => rw [processEntry_of_err _ _ _ _ h0]; simp [h0]
  | none =>
      by_cases hw : st.fs.canWrite e.1 = true
      · rw [processEntry_of_canWrite _ _ _ h0 hw]; simp [hw]
      · rw [processEntry_of_cantWrite _ _ _ h0 (by simpa using hw)]; simp [hw]

theorem processEntry_lookup_other (main_icon : Image) (st : RunState) (e : String × Nat)
    (p : String) (h : e.1 ≠ p) :
    (processEntry main_icon st e).fs.lookup p = st.fs.lookup p := by
  cases h0 : st.err with
  | some er => rw [processEntry_of_err _ _ _ _ h0]
  | none =>
      by_cases hw : st.fs.canWrite e.1 = true
      · rw [processEntry_of_canWrite _ _ _ h0 hw]
        show lookupFile (setFile st.fs.files e.1 _) p = _
        rw [lookupFile_setFile, if_neg h]
        rfl
      · rw [processEntry_of_cantWrite _ _ _ h0 (by simpa using hw)]

theorem processEntry_lookup_self (main_icon : Image) (st : RunState) (e : String × Nat)
    (h0 : st.err = none) (hw : st.fs.canWrite e.1 = true) :
    (processEntry main_icon st e).fs.lookup e.1 =
      some (entryContent main_icon e.1 e.2) := by
  rw [processEntry_of_canWrite _ _ _ h0 hw]
  show lookupFile (setFile st.fs.files e.1 _) e.1 = _
  rw [lookupFile_setFile, if_pos rfl]

theorem processEntry_output_of_canWrite (main_icon : Image) (st : RunState)
    (e : String × Nat) (h0 : st.err = none) (hw : st.fs.canWrite e.1 = true) :
    (processEntry main_icon st e).output = st.output ++ [progressLine e.1 e.2] := by
  rw [processEntry_of_canWrite _ _ _ h0 hw]

/-! ### Lemmas about running a whole table -/

theorem runEntries_nil (main_icon : Image) (st : RunState) :
    runEntries main_icon [] st = st := rfl

theorem runEntries_cons (main_icon : Image) (e : String × Nat)
    (L : List (String × Nat)) (st : RunState) :
    runEntries main_icon (e :: L) st =
      runEntries main_icon L (processEntry main_icon st e) := rfl

theorem runEntries_append (main_icon : Image) (L1 L2 : List (String × Nat))
    (st : RunState) :
    runEntries main_icon (L1 ++ L2) st =
      runEntries main_icon L2 (runEntries main_icon L1 st) :=
  List.foldl_append _ _ _ _

theorem runEntries_of_err (main_icon : Image) (L : List (String × Nat)) (st : RunState)
    (er : Err) (h : st.err = some er) : runEntries main_icon L st = st := by
  induction L with
  | nil => rfl
  | cons e L ih =>
      rw [runEntries_cons, processEntry_of_err _ _ _ _ h, ih]

theorem runEntries_canWrite (main_icon : Image) (L : List (String × Nat)) (st : RunState)
    (p : String) : (runEntries main_icon L st).fs.canWrite p = st.fs.canWrite p := by
  induction L generalizing st with
  | nil => rfl
  | cons e L ih =>
      rw [runEntries_cons, ih, processEntry_canWrite]

theorem runEntries_source (main_icon : Image) (L : List (String × Nat)) (st : RunState) :
    (runEntries main_icon L st).fs.source = st.fs.source := by
  induction L generalizing st with
  | nil => rfl
  | cons e L ih =>
      rw [runEntries_cons, ih, processEntry_source]

theorem runEntries_err_none_iff (main_icon : Image) (L : List (String × Nat))
    (st : RunState) :
    (runEntries main_icon L st).err = none ↔
      st.err = none ∧ ∀ e ∈ L, st.fs.canWrite e.1 = true := by
  induction L generalizing st with
  | nil => simp [runEntries_nil]
  | cons a L ih =>
      rw [runEntries_cons, ih, processEntry_err_none_iff]
      constructor
      · rintro ⟨⟨h0, ha⟩, hrest⟩
        refine ⟨h0, ?_⟩
        intro e he
        rcases List.mem_cons.mp he with he | he
        · subst he; exact ha
        · have := hrest e he
          rwa [processEntry_canWrite] at this
      · rintro ⟨h0, hall⟩
        refine ⟨⟨h0, hall a (List.mem_cons_self a L)⟩, ?_⟩
        intro e he
        rw [processEntry_canWrite]
        exact hall e (List.mem_cons_of_mem a he)

theorem runEntries_lookup_not_mem (main_icon : Image) (L : List (String × Nat))
    (st : RunState) (p : String) (h : ∀ e ∈ L, e.1 ≠ p) :
    (runEntries main_icon L st).fs.lookup p = st.fs.lookup p := by
  induction L generalizing st with
  | nil => rfl
  | cons a L ih =>
      rw [runEntries_cons, ih _ (fun e he => h e (List.mem_cons_of_mem a he)),
        processEntry_lookup_other _ _ _ _ (h a (List.mem_cons_self a L))]

theorem runEntries_lookup_mem (main_icon : Image) (L : List (String × Nat))
    (st : RunState) (e : String × Nat) (hnd : (L.map Prod.fst).Nodup)
    (hsucc : (runEntries main_icon L st).err = none) (hmem : e ∈ L) :
    (runEntries main_icon L st).fs.lookup e.1 =
      some (entryContent main_icon e.1 e.2) := by
  induction L generalizing st with
  | nil => cases hmem
  | cons a L ih =>
      have hsucc1 := (runEntries_err_none_iff main_icon (a :: L) st).mp hsucc
      obtain ⟨h0, hall⟩ := hsucc1
      rw [List.map_cons, List.nodup_cons] at hnd
      rcases List.mem_cons.mp hmem with he | he
      · subst he
        rw [runEntries_cons]
        rw [runEntries_lookup_not_mem]
        · exact processEntry_lookup_self _ _ _ h0 (hall e (List.mem_cons_self e L))
        · intro x hx hxe
          exact hnd.1 (hxe ▸ List.mem_map_of_mem Prod.fst hx)
      · rw [runEntries_cons]
        refine ih (processEntry main_icon st a) hnd.2 ?_ he
        rw [← runEntries_cons]
        exact hsucc

theorem runEntries_output_of_success (main_icon : Image) (L : List (String × Nat))
    (st : RunState) (hsucc : (runEntries main_icon L st).err = none) :
    (runEntries main_icon L st).output =
      st.output ++ L.map (fun e => progressLine e.1 e.2) := by
  induction L generalizing st with
  | nil => simp [runEntries_nil]
  | cons a L ih =>
      have hsucc1 := (runEntries_err_none_iff main_icon (a :: L) st).mp hsucc
      obtain ⟨h0, hall⟩ := hsucc1
      rw [runEntries_cons, ih _ (by rw [← runEntries_cons]; exact hsucc),
        processEntry_output_of_canWrite _ _ _ h0 (hall a (List.mem_cons_self a L))]
      simp

theorem runEntries_fail_at (main_icon : Image) (L1 L2 : List (String × Nat))
    (e : String × Nat) (st : RunState) (h0 : st.err = none)
    (h1 : ∀ x ∈ L1, st.fs.canWrite x.1 = true) (he : st.fs.canWrite e.1 = false) :
    runEntries main_icon (L1 ++ e :: L2) st =
      { runEntries main_icon L1 st with err := some (.saveError e.1) } := by
  rw [runEntries_append, runEntries_cons]
  have hsucc1 : (runEntries main_icon L1 st).err = none :=
    (runEntries_err_none_iff main_icon L1 st).mpr ⟨h0, h1⟩
  have hcw : (runEntries main_icon L1 st).fs.canWrite e.1 = false := by
    rw [runEntries_canWrite]; exact he
  rw [processEntry_of_cantWrite _ _ _ hsucc1 hcw,
    runEntries_of_err main_icon L2 _ (Err.saveError e.1) rfl]

/-! ### Content of a single written entry -/

theorem entryContent_image (main_icon : Image) (p : String) (s : Nat) :
    (entryContent main_icon p s).image = Image.resized main_icon s s := by
  unfold entryContent
  split <;> rfl

theorem entryContent_width (main_icon : Image) (p : String) (s : Nat) :
    (entryContent main_icon p s).width = s := by
  unfold Content.width
  rw [entryContent_image]
  rfl

theorem entryContent_height (main_icon : Image) (p : String) (s : Nat) :
    (entryContent main_icon p s).height = s := by
  unfold Content.height
  rw [entryContent_image]
  rfl

theorem entryContent_format (main_icon : Image) (p : String) (s : Nat) :
    (entryContent main_icon p s).format =
      if hasIcoSuffix p then Format.ico else Format.png := by
  unfold entryContent
  split <;> rfl

theorem entryContent_icoSizes (main_icon : Image) (p : String) (s : Nat) :
    (entryContent main_icon p s).icoSizes =
      if hasIcoSuffix p then [(s, s)] else [] := by
  unfold entryContent
  split <;> rfl

/-! ### Whole-program helpers -/

theorem generate_icons_of_no_source (fs : FS) (h : fs.source = none) :
    generate_icons fs = { fs := fs, output := [], err := some .loadError } := by
  unfold generate_icons Image.open
  rw [h]

theorem generate_icons_of_source (fs : FS) (main_icon : Image)
    (h : fs.source = some main_icon) :
    generate_icons fs =
      runEntries main_icon allEntries { fs := fs, output := [], err := none } := by
  unfold generate_icons Image.open
  rw [h]
  simp only [allEntries, runEntries_append]

theorem generate_icons_success_source (fs : FS)
    (h : (generate_icons fs).err = none) :
    ∃ main_icon, fs.source = some main_icon := by
  cases hs : fs.source with
  | none =>
      rw [generate_icons_of_no_source fs hs] at h
      exact absurd h (by simp)
  | some main_icon => exact ⟨main_icon, rfl⟩

/-- The output paths of the three tables are pairwise distinct. -/
theorem allEntries_keys_nodup : (allEntries.map Prod.fst).Nodup := by decide

theorem generate_icons_success_canWrite (fs : FS) (main_icon : Image)
    (hsrc : fs.source = some main_icon) (h : (generate_icons fs).err = none) :
    ∀ e ∈ allEntries, fs.canWrite e.1 = true := by
  rw [generate_icons_of_source fs main_icon hsrc, runEntries_err_none_iff] at h
  exact h.2

theorem generate_icons_lookup_mem (fs : FS) (main_icon : Image)
    (hsrc : fs.source = some main_icon) (hsucc : (generate_icons fs).err = none)
    (e : String × Nat) (hmem : e ∈ allEntries) :
    (generate_icons fs).fs.lookup e.1 = some (entryContent main_icon e.1 e.2) := by
  rw [generate_icons_of_source fs main_icon hsrc] at hsucc ⊢
  exact runEntries_lookup_mem main_icon allEntries _ e allEntries_keys_nodup hsucc hmem

theorem generate_icons_lookup_not_mem (fs : FS) (main_icon : Image)
    (hsrc : fs.source = some main_icon) (p : String)
    (h : ∀ e ∈ allEntries, e.1 ≠ p) :
    (generate_icons fs).fs.lookup p = fs.lookup p := by
  rw [generate_icons_of_source fs main_icon hsrc]
  exact runEntries_lookup_not_mem main_icon allEntries _ p h

/-! ### Concrete fixtures used by the witness theorems -/

/-- A concrete non-square decodable source image, 512 × 300. -/
def demoImage : Image := .src 0 512 300

/-- A concrete starting filesystem: the `ios/` subdirectory exists, the
working directory is writable, no output file exists yet, and `icon.png`
decodes to `demoImage`. -/
def demoFS : FS :=
  { dirs := ["ios"], rootWritable := true, files := [], source := some demoImage }

/-- On the demo filesystem the whole run succeeds. -/
theorem demoFS_success : (generate_icons demoFS).err = none := by decide

/-- A concrete filesystem whose `icon.png` is missing or undecodable. -/
def demoFSNoSource : FS :=
  { dirs := ["ios"], rootWritable := true, files := [], source := none }

/-- A concrete filesystem where the `ios/` subdirectory is missing but the
working directory is writable and the source decodes. -/
def demoFSNoIos : FS :=
  { dirs := [], rootWritable := true, files := [], source := some demoImage }

/-- Anatomy of a run that hits its first unwritable entry `e` after the
prefix `L1` of the entry list: the run dies with `e`'s save error, the
prefix is on disk, and `e` and everything after it is untouched. -/
theorem generate_icons_fail_split (fs : FS) (main_icon : Image)
    (hsrc : fs.source = some main_icon)
    (L1 L2 : List (String × Nat)) (e : String × Nat)
    (hsplit : allEntries = L1 ++ e :: L2)
    (h1 : ∀ x ∈ L1, fs.canWrite x.1 = true)
    (he : fs.canWrite e.1 = false) :
    (generate_icons fs).err = some (.saveError e.1) ∧
      (∀ x ∈ L1, (generate_icons fs).fs.lookup x.1 =
        some (entryContent main_icon x.1 x.2)) ∧
      (generate_icons fs).fs.lookup e.1 = fs.lookup e.1 ∧
      (∀ x ∈ L2, (generate_icons fs).fs.lookup x.1 = fs.lookup x.1) ∧
      (generate_icons fs).output = L1.map (fun x => progressLine x.1 x.2) := by
  have nd : ((L1 ++ e :: L2).map Prod.fst).Nodup := by
    rw [← hsplit]
    exact allEntries_keys_nodup
  rw [List.map_append, List.map_cons, List.nodup_append] at nd
  obtain ⟨nd1, nd2, ndisj⟩ := nd
  have hsucc1 : (runEntries main_icon L1
      { fs := fs, output := [], err := none }).err = none :=
    (runEntries_err_none_iff main_icon L1 _).mpr ⟨rfl, h1⟩
  rw [generate_icons_of_source fs main_icon hsrc, hsplit,
    runEntries_fail_at main_icon L1 L2 e _ rfl h1 he]
  refine ⟨rfl, ?_, ?_, ?_, ?_⟩
  · intro x hx
    exact runEntries_lookup_mem main_icon L1 _ x nd1 hsucc1 hx
  · show (runEntries main_icon L1 _).fs.lookup e.1 = fs.lookup e.1
    apply runEntries_lookup_not_mem
    intro y hy hye
    exact ndisj (List.mem_map_of_mem Prod.fst hy)
      (hye ▸ List.mem_cons_self e.1 (L2.map Prod.fst))
  · intro x hx
    show (runEntries main_icon L1 _).fs.lookup x.1 = fs.lookup x.1
    apply runEntries_lookup_not_mem
    intro y hy hye
    exact ndisj (List.mem_map_of_mem Prod.fst hy)
      (hye ▸ List.mem_cons_of_mem e.1 (List.mem_map_of_mem Prod.fst hx))
  · show (runEntries main_icon L1 _).output = _
    rw [runEntries_output_of_success main_icon L1 _ hsucc1]
    rfl

/-- For a path that is the key of no entry of `L`, every key of `L`
differs from it. -/
theorem keys_ne_of_no_entry (L : List (String × Nat)) (p : String)
    (hp : ¬ ∃ s : Nat, (p, s) ∈ L) : ∀ e ∈ L, e.1 ≠ p := by
  intro e he heq
  apply hp
  refine ⟨e.2, ?_⟩
  rw [← heq, Prod.mk.eta]
  exact he

/-! ### Claim theorems -/

/-- C1: after a successful run of `generate_icons`, for every
`(path, size)` entry of the three size tables (desktop, iOS, Windows
Store) a file exists at that path whose decoded pixel dimensions are
exactly `size × size` — for every decodable source image, non-square ones
included (both dimensions are forced to the declared square size, aspect
ratio is not preserved). -/
theorem C1_outputs_exact_square (fs : FS)
    (hsucc : (generate_icons fs).err = none)
    (p : String) (s : Nat) (hmem : (p, s) ∈ allEntries) :
    ∃ c : Content, (generate_icons fs).fs.lookup p = some c ∧
      c.width = s ∧ c.height = s := by
  obtain ⟨main_icon, hsrc⟩ := generate_icons_success_source fs hsucc
  exact ⟨entryContent main_icon p s,
    generate_icons_lookup_mem fs main_icon hsrc hsucc (p, s) hmem,
    entryContent_width _ _ _, entryContent_height _ _ _⟩

/-- Witness for C1: a successful concrete run with a non-square 512×300
source produces a 1024×1024 file at `ios/AppIcon-512@2x.png`. -/
theorem C1_outputs_exact_square_witness :
    ∃ c : Content,
      (generate_icons demoFS).fs.lookup "ios/AppIcon-512@2x.png" = some c ∧
        c.width = 1024 ∧ c.height = 1024 :=
  C1_outputs_exact_square demoFS demoFS_success "ios/AppIcon-512@2x.png" 1024
    (by decide)

/-- C2: when `icon.png` is missing or not a decodable raster image, the
run dies with the load error before writing anything: the filesystem is
returned unchanged and no progress line was printed. -/
theorem C2_load_failure_writes_nothing (fs : FS) (h : fs.source = none) :
    (generate_icons fs).err = some .loadError ∧
      (generate_icons fs).fs = fs ∧ (generate_icons fs).output = [] := by
  rw [generate_icons_of_no_source fs h]
  exact ⟨rfl, rfl, rfl⟩

/-- Witness for C2 on a concrete filesystem with no decodable source. -/
theorem C2_load_failure_writes_nothing_witness :
    (generate_icons demoFSNoSource).err = some .loadError ∧
      (generate_icons demoFSNoSource).fs = demoFSNoSource ∧
      (generate_icons demoFSNoSource).output = [] :=
  C2_load_failure_writes_nothing demoFSNoSource rfl

/-- C7: the loaded source image is never modified; every output file holds
`Image.resized main_icon s s`, a fresh image resized directly from the
original decoded source, never from a previously resized intermediate. -/
theorem C7_outputs_resized_from_original (fs : FS) (main_icon : Image)
    (hsrc : fs.source = some main_icon)
    (hsucc : (generate_icons fs).err = none)
    (p : String) (s : Nat) (hmem : (p, s) ∈ allEntries) :
    ∃ c : Content, (generate_icons fs).fs.lookup p = some c ∧
      c.image = Image.resized main_icon s s := by
  exact ⟨entryContent main_icon p s,
    generate_icons_lookup_mem fs main_icon hsrc hsucc (p, s) hmem,
    entryContent_image _ _ _⟩

/-- Witness for C7 at the `64x64.png` entry of a concrete run. -/
theorem C7_outputs_resized_from_original_witness :
    ∃ c : Content, (generate_icons demoFS).fs.lookup "64x64.png" = some c ∧
      c.image = Image.resized demoImage 64 64 :=
  C7_outputs_resized_from_original demoFS demoImage rfl demoFS_success
    "64x64.png" 64 (by decide)

/-- C8: `generate_icons` reads nothing but the ambient filesystem state
(the source path is hardcoded), and a successful run prints exactly the
progress lines of the table entries, in order: one line per entry, 30 in
total. -/
theorem C8_one_progress_line_per_entry (fs : FS)
    (hsucc : (generate_icons fs).err = none) :
    (generate_icons fs).output = allEntries.map (fun e => progressLine e.1 e.2) ∧
      (generate_icons fs).output.length = 30 := by
  obtain ⟨main_icon, hsrc⟩ := generate_icons_success_source fs hsucc
  rw [generate_icons_of_source fs main_icon hsrc] at hsucc ⊢
  have hout := runEntries_output_of_success main_icon allEntries _ hsucc
  refine ⟨by rw [hout]; rfl, ?_⟩
  rw [hout, List.nil_append, List.length_map]
  decide

/-- Witness for C8 on a concrete successful run. -/
theorem C8_one_progress_line_per_entry_witness :
    (generate_icons demoFS).output =
        allEntries.map (fun e => progressLine e.1 e.2) ∧
      (generate_icons demoFS).output.length = 30 :=
  C8_one_progress_line_per_entry demoFS demoFS_success

/-- C9: the three size tables hold 5, 15 and 10 entries respectively — 30
in all — and their output paths are pairwise distinct, so no path is
written twice within one run. -/
theorem C9_thirty_distinct_paths :
    sizes.length = 5 ∧ ios_sizes.length = 15 ∧ store_sizes.length = 10 ∧
      allEntries.length = 30 ∧ (allEntries.map Prod.fst).Nodup := by
  decide

/-- C4: exactly one table entry has a filename ending in `.ico`, namely
`icon.ico` with declared size 32; after a successful run that file is
encoded in ICO format with a single embedded 32×32 image, every other
entry's file is saved as PNG, and the format an entry gets is decided by
the filename-suffix test alone — the only format branch in the program. -/
theorem C4_single_ico_entry (fs : FS) (main_icon : Image)
    (hsrc : fs.source = some main_icon)
    (hsucc : (generate_icons fs).err = none) :
    allEntries.countP (fun e => hasIcoSuffix e.1) = 1 ∧
      ("icon.ico", 32) ∈ allEntries ∧ hasIcoSuffix "icon.ico" = true ∧
      (generate_icons fs).fs.lookup "icon.ico" =
        some { image := Image.resized main_icon 32 32, format := .ico,
               icoSizes := [(32, 32)] } ∧
      (∀ e ∈ allEntries, hasIcoSuffix e.1 = false →
        ∃ c : Content, (generate_icons fs).fs.lookup e.1 = some c ∧
          c.format = .png ∧ c.icoSizes = []) ∧
      (∀ p : String, ∀ s : Nat, (entryContent main_icon p s).format =
        if hasIcoSuffix p then Format.ico else Format.png) := by
  refine ⟨by decide, by decide, by decide, ?_, ?_, entryContent_format main_icon⟩
  · rw [generate_icons_lookup_mem fs main_icon hsrc hsucc ("icon.ico", 32) (by decide)]
    rfl
  · intro e he hico
    refine ⟨entryContent main_icon e.1 e.2,
      generate_icons_lookup_mem fs main_icon hsrc hsucc e he, ?_, ?_⟩
    · rw [entryContent_format, hico]
      rfl
    · rw [entryContent_icoSizes, hico]
      rfl

/-- Witness for C4 on a concrete successful run. -/
theorem C4_single_ico_entry_witness :
    allEntries.countP (fun e => hasIcoSuffix e.1) = 1 ∧
      ("icon.ico", 32) ∈ allEntries ∧ hasIcoSuffix "icon.ico" = true ∧
      (generate_icons demoFS).fs.lookup "icon.ico" =
        some { image := Image.resized demoImage 32 32, format := .ico,
               icoSizes := [(32, 32)] } ∧
      (∀ e ∈ allEntries, hasIcoSuffix e.1 = false →
        ∃ c : Content, (generate_icons demoFS).fs.lookup e.1 = some c ∧
          c.format = .png ∧ c.icoSizes = []) ∧
      (∀ p : String, ∀ s : Nat, (entryContent demoImage p s).format =
        if hasIcoSuffix p then Format.ico else Format.png) :=
  C4_single_ico_entry demoFS demoImage rfl demoFS_success

/-- C5: running `generate_icons` twice in succession succeeds both times,
and the second run leaves every path (output paths included, having been
overwritten with identical-dimension results) with exactly the content it
had after the first run. -/
theorem C5_idempotent (fs : FS) (hsucc : (generate_icons fs).err = none) :
    (generate_icons (generate_icons fs).fs).err = none ∧
      ∀ p : String, (generate_icons (generate_icons fs).fs).fs.lookup p =
        (generate_icons fs).fs.lookup p := by
  obtain ⟨main_icon, hsrc⟩ := generate_icons_success_source fs hsucc
  have hall := generate_icons_success_canWrite fs main_icon hsrc hsucc
  have hsrc1 : (generate_icons fs).fs.source = some main_icon := by
    rw [generate_icons_of_source fs main_icon hsrc, runEntries_source]
    exact hsrc
  have hcw1 : ∀ p : String,
      (generate_icons fs).fs.canWrite p = fs.canWrite p := by
    intro p
    rw [generate_icons_of_source fs main_icon hsrc, runEntries_canWrite]
  have hsucc2 : (generate_icons (generate_icons fs).fs).err = none := by
    rw [generate_icons_of_source _ main_icon hsrc1, runEntries_err_none_iff]
    exact ⟨rfl, fun e he => (hcw1 e.1).trans (hall e he)⟩
  refine ⟨hsucc2, ?_⟩
  intro p
  by_cases hp : ∃ s : Nat, (p, s) ∈ allEntries
  · obtain ⟨s, hps⟩ := hp
    rw [generate_icons_lookup_mem _ main_icon hsrc1 hsucc2 (p, s) hps,
      generate_icons_lookup_mem fs main_icon hsrc hsucc (p, s) hps]
  · have hnot : ∀ e ∈ allEntries, e.1 ≠ p := by
      intro e he heq
      apply hp
      refine ⟨e.2, ?_⟩
      rw [← heq, Prod.mk.eta]
      exact he
    rw [generate_icons_lookup_not_mem _ main_icon hsrc1 p hnot]

/-- Witness for C5 on a concrete successful run. -/
theorem C5_idempotent_witness :
    (generate_icons (generate_icons demoFS).fs).err = none ∧
      ∀ p : String, (generate_icons (generate_icons demoFS).fs).fs.lookup p =
        (generate_icons demoFS).fs.lookup p :=
  C5_idempotent demoFS demoFS_success

/-- C3: fail-fast per-entry failure.  If the entry list splits as
`L1 ++ e :: L2` where every `L1` entry is writable and `e` is not, the
run aborts at `e` with the uncaught save error: every entry before `e`
is on disk with its resized content, while neither `e` nor any entry
after it has been written (their paths still hold whatever the initial
filesystem held), and exactly the `L1` progress lines were printed. -/
theorem C3_fail_fast_aborts_at_entry (fs : FS) (main_icon : Image)
    (hsrc : fs.source = some main_icon)
    (L1 L2 : List (String × Nat)) (e : String × Nat)
    (hsplit : allEntries = L1 ++ e :: L2)
    (h1 : ∀ x ∈ L1, fs.canWrite x.1 = true)
    (he : fs.canWrite e.1 = false) :
    (generate_icons fs).err = some (.saveError e.1) ∧
      (∀ x ∈ L1, (generate_icons fs).fs.lookup x.1 =
        some (entryContent main_icon x.1 x.2)) ∧
      (generate_icons fs).fs.lookup e.1 = fs.lookup e.1 ∧
      (∀ x ∈ L2, (generate_icons fs).fs.lookup x.1 = fs.lookup x.1) ∧
      (generate_icons fs).output = L1.map (fun x => progressLine x.1 x.2) :=
  generate_icons_fail_split fs main_icon hsrc L1 L2 e hsplit h1 he

/-- Witness for C3: on a concrete filesystem without the `ios/`
subdirectory the run aborts at the first iOS entry, with the five desktop
files written and nothing else. -/
theorem C3_fail_fast_aborts_at_entry_witness :
    (generate_icons demoFSNoIos).err =
        some (.saveError "ios/AppIcon-20x20@1x.png") ∧
      (∀ x ∈ sizes, (generate_icons demoFSNoIos).fs.lookup x.1 =
        some (entryContent demoImage x.1 x.2)) ∧
      (generate_icons demoFSNoIos).fs.lookup "ios/AppIcon-20x20@1x.png" =
        demoFSNoIos.lookup "ios/AppIcon-20x20@1x.png" ∧
      (∀ x ∈ ios_sizes.drop 1 ++ store_sizes,
        (generate_icons demoFSNoIos).fs.lookup x.1 = demoFSNoIos.lookup x.1) ∧
      (generate_icons demoFSNoIos).output =
        sizes.map (fun x => progressLine x.1 x.2) :=
  C3_fail_fast_aborts_at_entry demoFSNoIos demoImage rfl sizes
    (ios_sizes.drop 1 ++ store_sizes) ("ios/AppIcon-20x20@1x.png", 20)
    (by decide) (by decide) (by decide)

/-- C6: permutation invariance.  Running the loop body over any
permutation of the 30 table entries succeeds exactly when the program's
run does, leaves every path with the same content as the program's run,
and prints a permutation of the program's progress lines. -/
theorem C6_order_of_entries_irrelevant (fs : FS) (main_icon : Image)
    (hsrc : fs.source = some main_icon)
    (hsucc : (generate_icons fs).err = none)
    (L : List (String × Nat)) (hperm : L.Perm allEntries) :
    (runEntries main_icon L { fs := fs, output := [], err := none }).err = none ∧
      (∀ p : String,
        (runEntries main_icon L
            { fs := fs, output := [], err := none }).fs.lookup p =
          (generate_icons fs).fs.lookup p) ∧
      (runEntries main_icon L
          { fs := fs, output := [], err := none }).output.Perm
        (generate_icons fs).output := by
  have hall := generate_icons_success_canWrite fs main_icon hsrc hsucc
  have hndL : (L.map Prod.fst).Nodup :=
    ((hperm.map Prod.fst).nodup_iff).mpr allEntries_keys_nodup
  have hsuccL : (runEntries main_icon L
      { fs := fs, output := [], err := none }).err = none :=
    (runEntries_err_none_iff main_icon L _).mpr
      ⟨rfl, fun e he => hall e (hperm.subset he)⟩
  refine ⟨hsuccL, ?_, ?_⟩
  · intro p
    by_cases hp : ∃ s : Nat, (p, s) ∈ allEntries
    · obtain ⟨s, hps⟩ := hp
      rw [runEntries_lookup_mem main_icon L _ (p, s) hndL hsuccL
          (hperm.mem_iff.mpr hps),
        generate_icons_lookup_mem fs main_icon hsrc hsucc (p, s) hps]
    · have hnot := keys_ne_of_no_entry allEntries p hp
      have hnotL : ∀ e ∈ L, e.1 ≠ p := fun e he => hnot e (hperm.subset he)
      rw [runEntries_lookup_not_mem main_icon L _ p hnotL,
        generate_icons_lookup_not_mem fs main_icon hsrc p hnot]
  · rw [runEntries_output_of_success main_icon L _ hsuccL,
      generate_icons_of_source fs main_icon hsrc,
      runEntries_output_of_success main_icon allEntries _
        (by rwa [generate_icons_of_source fs main_icon hsrc] at hsucc)]
    simpa using hperm.map (fun e => progressLine e.1 e.2)

/-- Witness for C6 with the entries processed in reverse order on a
concrete successful run. -/
theorem C6_order_of_entries_irrelevant_witness :
    (runEntries demoImage allEntries.reverse
        { fs := demoFS, output := [], err := none }).err = none ∧
      (∀ p : String,
        (runEntries demoImage allEntries.reverse
            { fs := demoFS, output := [], err := none }).fs.lookup p =
          (generate_icons demoFS).fs.lookup p) ∧
      (runEntries demoImage allEntries.reverse
          { fs := demoFS, output := [], err := none }).output.Perm
        (generate_icons demoFS).output :=
  C6_order_of_entries_irrelevant demoFS demoImage rfl demoFS_success
    allEntries.reverse (List.reverse_perm allEntries)

/-- C10: the tables run in the order desktop, iOS, Windows Store.  When
the `ios/` subdirectory is missing while the source decodes and the
working directory is writable, the run dies at the first iOS entry: all
five desktop files are written, no iOS or Windows Store path is touched,
and only the five desktop progress lines were printed. -/
theorem C10_missing_ios_dir_stops_after_desktop (fs : FS) (main_icon : Image)
    (hsrc : fs.source = some main_icon)
    (hroot : fs.rootWritable = true)
    (hios : fs.dirs.contains "ios" = false) :
    (generate_icons fs).err = some (.saveError "ios/AppIcon-20x20@1x.png") ∧
      (∀ x ∈ sizes, (generate_icons fs).fs.lookup x.1 =
        some (entryContent main_icon x.1 x.2)) ∧
      (∀ x ∈ ios_sizes, (generate_icons fs).fs.lookup x.1 = fs.lookup x.1) ∧
      (∀ x ∈ store_sizes, (generate_icons fs).fs.lookup x.1 = fs.lookup x.1) ∧
      (generate_icons fs).output = sizes.map (fun x => progressLine x.1 x.2) := by
  have hflat : ∀ x ∈ sizes, dirOf x.1 = none := by decide
  have h1 : ∀ x ∈ sizes, fs.canWrite x.1 = true := fun x hx =>
    (canWrite_flat fs x.1 (hflat x hx)).trans hroot
  have he : fs.canWrite "ios/AppIcon-20x20@1x.png" = false :=
    (canWrite_sub fs _ "ios" (by decide)).trans hios
  obtain ⟨herr, hL1, hefail, hL2, hout⟩ :=
    generate_icons_fail_split fs main_icon hsrc sizes
      (ios_sizes.drop 1 ++ store_sizes) ("ios/AppIcon-20x20@1x.png", 20)
      (by decide) h1 he
  refine ⟨herr, hL1, ?_, ?_, hout⟩
  · intro x hx
    rw [show ios_sizes =
        ("ios/AppIcon-20x20@1x.png", 20) :: ios_sizes.drop 1 from rfl] at hx
    rcases List.mem_cons.mp hx with hx | hx
    · subst hx
      exact hefail
    · exact hL2 x (List.mem_append_left _ hx)
  · intro x hx
    exact hL2 x (List.mem_append_right _ hx)

/-- Witness for C10 on a concrete filesystem without `ios/`. -/
theorem C10_missing_ios_dir_stops_after_desktop_witness :
    (generate_icons demoFSNoIos).err =
        some (.saveError "ios/AppIcon-20x20@1x.png") ∧
      (∀ x ∈ sizes, (generate_icons demoFSNoIos).fs.lookup x.1 =
        some (entryContent demoImage x.1 x.2)) ∧
      (∀ x ∈ ios_sizes,
        (generate_icons demoFSNoIos).fs.lookup x.1 = demoFSNoIos.lookup x.1) ∧
      (∀ x ∈ store_sizes,
        (generate_icons demoFSNoIos).fs.lookup x.1 = demoFSNoIos.lookup x.1) ∧
      (generate_icons demoFSNoIos).output =
        sizes.map (fun x => progressLine x.1 x.2) :=
  C10_missing_ios_dir_stops_after_desktop demoFSNoIos demoImage rfl rfl rfl

end IconGen
